import Mathlib

/-!
Shallow embedding of the pipeline lifecycle manager from
`pluginmanager/plugin_manager.go` (loongcollector).

Heap objects (`*LogstoreConfig`, the two runner structs) are modelled by
numeric identifiers into association-list heaps carried in the manager
state, so that pointer identity (the Disabled set is keyed by pointer) and
in-place mutation (`DeleteLogstoreConfig` nulls fields through the pointer)
are preserved.  Go maps are modelled as association lists with unique-key
insert/erase operations.  Goroutine scheduling and the 30-second deadline
race inside `timeoutStop` are abstracted by a per-config `StopBehavior`:
the stop procedure either signals completion before the deadline (`fast`),
blocks past it (`slow`), or panics (`panics`).
-/

namespace PluginManager

/-- Go-map association-list lookup: first binding of the key. -/
def alookup {κ α : Type} [DecidableEq κ] : List (κ × α) → κ → Option α
  | [], _ => none
  | (k', v) :: t, k => if k' = k then some v else alookup t k

/-- Go-map insert: replace the first binding of the key, or append. -/
def ainsert {κ α : Type} [DecidableEq κ] : List (κ × α) → κ → α → List (κ × α)
  | [], k, v => [(k, v)]
  | (k', v') :: t, k, v => if k' = k then (k, v) :: t else (k', v') :: ainsert t k v

/-- Go-map delete: remove every binding of the key. -/
def aerase {κ α : Type} [DecidableEq κ] : List (κ × α) → κ → List (κ × α)
  | [], _ => []
  | (k', v) :: t, k => if k' = k then aerase t k else (k', v) :: aerase t k

/-- Go set insert (`m[x] = struct\x7b\x7d\x7b\x7d`): add if absent. -/
def dinsert (c : Nat) (l : List Nat) : List Nat :=
  if c ∈ l then l else c :: l

/-- Go set delete. -/
def derase (l : List Nat) (c : Nat) : List Nat :=
  l.filter (fun x => x ≠ c)

/-- Outcome of `config.Stop(removedFlag)`, the pipeline's own stop
procedure (implemented outside this file's source).  `fast`: it signals
completion before the 30-second deadline; `slow`: it has not signalled
completion within 30 seconds; `panics`: it panics. -/
inductive StopBehavior : Type
  | fast
  | slow
  | panics
deriving DecidableEq, Repr

/-- A plugin instance wrapper: each wrapper struct carries a `Config`
back-reference to its owning pipeline (here: the pipeline's heap id). -/
structure PluginInstanceW : Type where
  Config : Option Nat
deriving DecidableEq, Repr

/-- The data shared by `pluginv1Runner` and `pluginv2Runner`: the five
role collections of plugin instances and the `LogstoreConfig`
back-reference.  `withInput` is the capability bit behind
`IsWithInputPlugin()`.  Modelled from the spec: the runner implementations
are outside this file's source; the spec describes them as "exposing
whether a pipeline owns an input stage" plus the five ordered collections
of plugin instances by role. -/
structure RunnerData : Type where
  MetricPlugins : List PluginInstanceW
  ServicePlugins : List PluginInstanceW
  ProcessorPlugins : List PluginInstanceW
  AggregatorPlugins : List PluginInstanceW
  FlusherPlugins : List PluginInstanceW
  LogstoreConfig : Option Nat
  withInput : Bool
deriving DecidableEq, Repr

/-- `config.PluginRunner`: a pointer to one of the two runner variants
(`*pluginv1Runner` or `*pluginv2Runner`); the payload is the runner's heap
id. -/
inductive PluginRunner : Type
  | v1 (rid : Nat)
  | v2 (rid : Nat)
deriving DecidableEq, Repr

/-- The runner's heap id, whichever variant it is. -/
def PluginRunner.rid : PluginRunner → Nat
  | .v1 r => r
  | .v2 r => r

/-- `config.Context`: either a `*ContextImp` (whose `logstoreC` field
back-references the pipeline) or some other implementation of the context
interface. -/
inductive PipelineContext : Type
  | imp (logstoreC : Option Nat)
  | other
deriving DecidableEq, Repr

/-- One `LogstoreConfig` heap object.  `stopBehavior` abstracts what its
`Stop` method does when invoked (see `StopBehavior`). -/
structure LogstoreConfig : Type where
  ConfigName : String
  ConfigNameWithSuffix : String
  Context : Option PipelineContext
  PluginRunner : Option PluginRunner
  stopBehavior : StopBehavior
deriving DecidableEq, Repr

/-- The manager's global mutable state: the two heaps plus the five
package-level variables of `plugin_manager.go` that the lifecycle
operations touch (`LogtailConfig`, the two staging slots,
`DisabledLogtailConfig`, `LastUnsendBuffer`). -/
structure MState : Type where
  heap : List (Nat × LogstoreConfig)
  runnerHeap : List (Nat × RunnerData)
  LogtailConfig : List (String × Nat)
  ToStartPipelineConfigWithInput : Option Nat
  ToStartPipelineConfigWithoutInput : Option Nat
  DisabledLogtailConfig : List Nat
  LastUnsendBuffer : List (String × Option PluginRunner)
deriving DecidableEq, Repr

/-- Dereference default for a dangling config pointer (never reached by
the theorems, which assume live heap entries). -/
def defaultConfig : LogstoreConfig :=
  { ConfigName := "", ConfigNameWithSuffix := "", Context := none,
    PluginRunner := none, stopBehavior := .fast }

def defaultRunner : RunnerData :=
  { MetricPlugins := [], ServicePlugins := [], ProcessorPlugins := [],
    AggregatorPlugins := [], FlusherPlugins := [], LogstoreConfig := none,
    withInput := false }

/-- Dereference a `*LogstoreConfig`. -/
def heapGetD (s : MState) (c : Nat) : LogstoreConfig :=
  (alookup s.heap c).getD defaultConfig

/-- Dereference a runner pointer. -/
def runnerGetD (s : MState) (rid : Nat) : RunnerData :=
  (alookup s.runnerHeap rid).getD defaultRunner

/-- `logstoreConfig.PluginRunner.IsWithInputPlugin()`. -/
def runnerWithInput (s : MState) (c : Nat) : Bool :=
  match (heapGetD s c).PluginRunner with
  | some rv => (runnerGetD s rv.rid).withInput
  | none => false

/-- Null the `Config` back-reference of every plugin instance in one role
collection (`for _, obj := range runner.XxxPlugins \x7b obj.Config = nil \x7d`). -/
def nullWrapperList (l : List PluginInstanceW) : List PluginInstanceW :=
  l.map (fun p => { p with Config := none })

/-- The in-place mutation `DeleteLogstoreConfig` performs on the runner
struct: null all five collections' back-references and the runner's own
`LogstoreConfig` back-reference. -/
def nullRunnerRefs (rd : RunnerData) : RunnerData :=
  { rd with
    MetricPlugins := nullWrapperList rd.MetricPlugins,
    ServicePlugins := nullWrapperList rd.ServicePlugins,
    ProcessorPlugins := nullWrapperList rd.ProcessorPlugins,
    AggregatorPlugins := nullWrapperList rd.AggregatorPlugins,
    FlusherPlugins := nullWrapperList rd.FlusherPlugins,
    LogstoreConfig := none }

/-- `DeleteLogstoreConfig(config, removedFlag)` (plugin_manager.go
192-236): null the `ContextImp.logstoreC` back-reference, null
`config.Context`, null every plugin instance's `Config` and the runner's
`LogstoreConfig` back-reference (both runner variants have identical
branches), record `config.PluginRunner` in `LastUnsendBuffer` keyed by
`config.ConfigName` when `removedFlag` is false, then null
`config.PluginRunner`. -/
def DeleteLogstoreConfig (c : Nat) (removedFlag : Bool) (s : MState) : MState :=
  let cfg := heapGetD s c
  let ctx1 : Option PipelineContext :=
    match cfg.Context with
    | some (PipelineContext.imp _) => some (PipelineContext.imp none)
    | o => o
  let cfg1 := { cfg with Context := ctx1 }
  let cfg2 := { cfg1 with Context := none }
  let s1 :=
    match cfg.PluginRunner with
    | some (PluginRunner.v1 rid) =>
        { s with runnerHeap := ainsert s.runnerHeap rid (nullRunnerRefs (runnerGetD s rid)) }
    | some (PluginRunner.v2 rid) =>
        { s with runnerHeap := ainsert s.runnerHeap rid (nullRunnerRefs (runnerGetD s rid)) }
    | none => s
  let buf :=
    if removedFlag then s.LastUnsendBuffer
    else ainsert s.LastUnsendBuffer cfg.ConfigName cfg.PluginRunner
  let cfg3 := { cfg2 with PluginRunner := none }
  { s1 with heap := ainsert s1.heap c cfg3, LastUnsendBuffer := buf }

/-- What the `select` in `timeoutStop` returns for each stop behavior:
`some true` when the `done` channel closes before the deadline,
`some false` when the 30-second timer fires first, and `none` when the
stop goroutine panics — that goroutine installs no `recover`, so the
panic is unrecovered and the whole process crashes before `timeoutStop`
can return. -/
def timeoutStopRet : StopBehavior → Option Bool
  | .fast => some true
  | .slow => some false
  | .panics => none

/-- The continuation of the goroutine spawned by `timeoutStop`, after the
config's `Stop` has returned and `done` has been closed (plugin_manager.go
130-139): under the Disabled lock, if the config is still in
`DisabledLogtailConfig` run `DeleteLogstoreConfig` and remove it from the
set; otherwise return without touching anything. -/
def stopGoroutineFinish (c : Nat) (removedFlag : Bool) (s : MState) : MState :=
  if c ∈ s.DisabledLogtailConfig then
    let s1 := DeleteLogstoreConfig c removedFlag s
    { s1 with DisabledLogtailConfig := derase s1.DisabledLogtailConfig c }
  else s

/-- The single lock-protected block of `Stop`'s completed-in-time branch
(plugin_manager.go 289-292): tear the config down and delete its name
from `LogtailConfig`, both under the registry write lock. -/
def stopFastBody (configName : String) (c : Nat) (removedFlag : Bool) (s : MState) : MState :=
  let s1 := DeleteLogstoreConfig c removedFlag s
  { s1 with LogtailConfig := aerase s1.LogtailConfig configName }

/-- The first lock-protected block of `Stop`'s timeout branch
(plugin_manager.go 281-283): add the config to `DisabledLogtailConfig`
under the Disabled lock. -/
def stopTimeoutAddDisabled (c : Nat) (s : MState) : MState :=
  { s with DisabledLogtailConfig := dinsert c s.DisabledLogtailConfig }

/-- The second lock-protected block of `Stop`'s timeout branch
(plugin_manager.go 284-286): delete the name from `LogtailConfig` under
the registry write lock. -/
def stopSlowUnregister (configName : String) (s : MState) : MState :=
  { s with LogtailConfig := aerase s.LogtailConfig configName }

/-- Result of a lifecycle entry point: `ok err s'` when the call returns
(with its error value and the resulting state), `crash` when an
unrecovered panic on the spawned stop goroutine kills the process
(`recover` does not cross goroutines, and the goroutine in `timeoutStop`
installs none). -/
inductive ExecResult : Type
  | ok (err : Option String) (s : MState)
  | crash
deriving DecidableEq, Repr

/-- `Stop(configName, removedFlag)` (plugin_manager.go 273-298). -/
def Stop (configName : String) (removedFlag : Bool) (s : MState) : ExecResult :=
  match alookup s.LogtailConfig configName with
  | some c =>
    match timeoutStopRet (heapGetD s c).stopBehavior with
    | none => .crash
    | some true => .ok none (stopFastBody configName c removedFlag s)
    | some false =>
        .ok none (stopSlowUnregister configName (stopTimeoutAddDisabled c s))
  | none => .ok (some ("config not found: " ++ configName)) s

/-- The per-entry body of the loop in `StopAllPipelines`
(plugin_manager.go 156-184), followed by the bulk registry delete.
`none` means the process crashed on a panicking stop goroutine.  The
second component collects `toDeleteConfigNames`.  Go's map iteration
order is arbitrary; it is modelled as the association list's order (the
per-entry effects touch disjoint heap objects in the well-formed states
the theorems quantify over, so the order does not affect the results
proved here). -/
def stopAllLoop (withInput : Bool) : List (String × Nat) → MState → Option (MState × List String)
  | [], s => some (s, [])
  | (configName, c) :: rest, s =>
    if runnerWithInput s c = withInput then
      match (heapGetD s c).stopBehavior with
      | .panics => none
      | .fast =>
        match stopAllLoop withInput rest (DeleteLogstoreConfig c true s) with
        | none => none
        | some (s', ns) => some (s', configName :: ns)
      | .slow =>
        match stopAllLoop withInput rest (stopTimeoutAddDisabled c s) with
        | none => none
        | some (s', ns) => some (s', configName :: ns)
    else stopAllLoop withInput rest s

/-- Delete every collected name from the registry (plugin_manager.go
185-187). -/
def eraseAll (l : List (String × Nat)) (ks : List String) : List (String × Nat) :=
  ks.foldl (fun acc k => aerase acc k) l

/-- `StopAllPipelines(withInput)` (plugin_manager.go 152-190): one pass
over the registry stopping every config whose `IsWithInputPlugin()`
equals `withInput` (quarantining the slow ones), then one pass deleting
the collected names. -/
def StopAllPipelines (withInput : Bool) (s : MState) : ExecResult :=
  match stopAllLoop withInput s.LogtailConfig s with
  | none => .crash
  | some (s', names) =>
      .ok none { s' with LogtailConfig := eraseAll s'.LogtailConfig names }

/-- The `expect` part of `Start`'s mismatch error message
(plugin_manager.go 319-325). -/
def startErrMsg (s : MState) : String :=
  let n1 :=
    match s.ToStartPipelineConfigWithInput with
    | some c => (heapGetD s c).ConfigNameWithSuffix
    | none => ""
  match s.ToStartPipelineConfigWithoutInput with
  | some c => n1 ++ " " ++ (heapGetD s c).ConfigNameWithSuffix
  | none => n1

/-- `Start`'s fallthrough (plugin_manager.go 310-326): try the
without-input staging slot, else return the mismatch error leaving the
state untouched. -/
def startWithoutInputBranch (configName : String) (s : MState) : ExecResult :=
  match s.ToStartPipelineConfigWithoutInput with
  | some c =>
    if (heapGetD s c).ConfigNameWithSuffix = configName then
      .ok none { s with
        LogtailConfig := ainsert s.LogtailConfig (heapGetD s c).ConfigNameWithSuffix c,
        ToStartPipelineConfigWithoutInput := none }
    else
      .ok (some ("config unmatch with the loaded pipeline: given " ++ configName
        ++ ", expect " ++ startErrMsg s)) s
  | none =>
      .ok (some ("config unmatch with the loaded pipeline: given " ++ configName
        ++ ", expect " ++ startErrMsg s)) s

/-- `Start(configName)` (plugin_manager.go 301-327): promote the
with-input staging slot if its pipeline's name-with-suffix matches, else
the without-input slot, else fail.  The promoted pipeline's own `Start`
method is external to this source and does not touch the manager state. -/
def Start (configName : String) (s : MState) : ExecResult :=
  match s.ToStartPipelineConfigWithInput with
  | some c =>
    if (heapGetD s c).ConfigNameWithSuffix = configName then
      .ok none { s with
        LogtailConfig := ainsert s.LogtailConfig (heapGetD s c).ConfigNameWithSuffix c,
        ToStartPipelineConfigWithInput := none }
    else startWithoutInputBranch configName s
  | none => startWithoutInputBranch configName s

/-! ## Association-list and set lemmas -/

theorem alookup_ainsert_self {κ α : Type} [DecidableEq κ] (l : List (κ × α)) (k : κ) (v : α) :
    alookup (ainsert l k v) k = some v := by
  induction l with
  | nil => simp [ainsert, alookup]
  | cons hd t ih =>
    obtain ⟨a, b⟩ := hd
    by_cases h : a = k
    · subst h
      simp [ainsert, alookup]
    · simp [ainsert, alookup, h, ih]

theorem alookup_ainsert_ne {κ α : Type} [DecidableEq κ] (l : List (κ × α)) (k k' : κ) (v : α)
    (h : k' ≠ k) : alookup (ainsert l k v) k' = alookup l k' := by
  induction l with
  | nil => simp [ainsert, alookup, Ne.symm h]
  | cons hd t ih =>
    obtain ⟨a, b⟩ := hd
    by_cases hak : a = k
    · subst hak
      simp [ainsert, alookup, Ne.symm h]
    · by_cases hak' : a = k'
      · subst hak'
        simp [ainsert, alookup, hak]
      · simp [ainsert, alookup, hak, hak', ih]

theorem ainsert_of_alookup_eq {κ α : Type} [DecidableEq κ] (l : List (κ × α)) (k : κ) (v : α)
    (h : alookup l k = some v) : ainsert l k v = l := by
  induction l with
  | nil => simp [alookup] at h
  | cons hd t ih =>
    obtain ⟨a, b⟩ := hd
    by_cases hak : a = k
    · subst hak
      simp [alookup] at h
      simp [ainsert, h]
    · simp [alookup, hak] at h
      simp [ainsert, hak, ih h]

theorem mem_aerase {κ α : Type} [DecidableEq κ] (l : List (κ × α)) (k : κ) (p : κ × α) :
    p ∈ aerase l k ↔ p ∈ l ∧ p.1 ≠ k := by
  induction l with
  | nil => simp [aerase]
  | cons hd t ih =>
    obtain ⟨a, b⟩ := hd
    by_cases hak : a = k
    · simp only [aerase, if_pos hak]
      rw [ih]
      constructor
      · rintro ⟨hm, hne⟩
        exact ⟨List.mem_cons_of_mem _ hm, hne⟩
      · rintro ⟨hm, hne⟩
        rcases List.mem_cons.mp hm with rfl | hm'
        · exact absurd hak hne
        · exact ⟨hm', hne⟩
    · simp only [aerase, if_neg hak]
      constructor
      · intro hm
        rcases List.mem_cons.mp hm with rfl | hm'
        · exact ⟨List.mem_cons_self _ _, hak⟩
        · obtain ⟨h1, h2⟩ := ih.mp hm'
          exact ⟨List.mem_cons_of_mem _ h1, h2⟩
      · rintro ⟨hm, hne⟩
        rcases List.mem_cons.mp hm with rfl | hm'
        · exact List.mem_cons_self _ _
        · exact List.mem_cons_of_mem _ (ih.mpr ⟨hm', hne⟩)

theorem alookup_aerase_self {κ α : Type} [DecidableEq κ] (l : List (κ × α)) (k : κ) :
    alookup (aerase l k) k = none := by
  induction l with
  | nil => simp [aerase, alookup]
  | cons hd t ih =>
    obtain ⟨a, b⟩ := hd
    by_cases hak : a = k
    · subst hak
      simpa [aerase] using ih
    · simpa [aerase, alookup, hak] using ih

theorem alookup_aerase_ne {κ α : Type} [DecidableEq κ] (l : List (κ × α)) (k k' : κ)
    (h : k' ≠ k) : alookup (aerase l k) k' = alookup l k' := by
  induction l with
  | nil => simp [aerase]
  | cons hd t ih =>
    obtain ⟨a, b⟩ := hd
    by_cases hak : a = k
    · subst hak
      simp [aerase, alookup, Ne.symm h, ih]
    · by_cases hak' : a = k'
      · subst hak'
        simp [aerase, alookup, hak]
      · simp [aerase, alookup, hak, hak', ih]

theorem alookup_mem {κ α : Type} [DecidableEq κ] (l : List (κ × α)) (k : κ) (v : α)
    (h : alookup l k = some v) : (k, v) ∈ l := by
  induction l with
  | nil => simp [alookup] at h
  | cons hd t ih =>
    obtain ⟨a, b⟩ := hd
    by_cases hak : a = k
    · subst hak
      simp [alookup] at h
      subst h
      exact List.mem_cons_self _ _
    · simp [alookup, hak] at h
      exact List.mem_cons_of_mem _ (ih h)

theorem mem_alookup_of_nodup {κ α : Type} [DecidableEq κ] (l : List (κ × α)) (k : κ) (v : α)
    (hnd : (l.map Prod.fst).Nodup) (h : (k, v) ∈ l) : alookup l k = some v := by
  induction l with
  | nil => simp at h
  | cons hd t ih =>
    obtain ⟨a, b⟩ := hd
    simp only [List.map_cons, List.nodup_cons] at hnd
    rcases List.mem_cons.mp h with heq | hm
    · cases heq
      simp [alookup]
    · have hak : a ≠ k := by
        intro hh
        subst hh
        exact hnd.1 (List.mem_map.mpr ⟨(a, v), hm, rfl⟩)
      simp [alookup, hak, ih hnd.2 hm]

theorem mem_dinsert (x c : Nat) (l : List Nat) : x ∈ dinsert c l ↔ x = c ∨ x ∈ l := by
  by_cases h : c ∈ l
  · simp only [dinsert, if_pos h]
    constructor
    · exact Or.inr
    · rintro (rfl | hx)
      · exact h
      · exact hx
  · simp [dinsert, if_neg h]

theorem mem_derase (x c : Nat) (l : List Nat) : x ∈ derase l c ↔ x ∈ l ∧ x ≠ c := by
  simp [derase]

/-! ## Effect and frame lemmas for `DeleteLogstoreConfig` -/

theorem delete_LogtailConfig_eq (c : Nat) (b : Bool) (s : MState) :
    (DeleteLogstoreConfig c b s).LogtailConfig = s.LogtailConfig := by
  rcases h : (heapGetD s c).PluginRunner with _ | rv
  · simp [DeleteLogstoreConfig, h]
  · cases rv <;> simp [DeleteLogstoreConfig, h]

theorem delete_Disabled_eq (c : Nat) (b : Bool) (s : MState) :
    (DeleteLogstoreConfig c b s).DisabledLogtailConfig = s.DisabledLogtailConfig := by
  rcases h : (heapGetD s c).PluginRunner with _ | rv
  · simp [DeleteLogstoreConfig, h]
  · cases rv <;> simp [DeleteLogstoreConfig, h]

theorem delete_slotIn_eq (c : Nat) (b : Bool) (s : MState) :
    (DeleteLogstoreConfig c b s).ToStartPipelineConfigWithInput
      = s.ToStartPipelineConfigWithInput := by
  rcases h : (heapGetD s c).PluginRunner with _ | rv
  · simp [DeleteLogstoreConfig, h]
  · cases rv <;> simp [DeleteLogstoreConfig, h]

theorem delete_slotOut_eq (c : Nat) (b : Bool) (s : MState) :
    (DeleteLogstoreConfig c b s).ToStartPipelineConfigWithoutInput
      = s.ToStartPipelineConfigWithoutInput := by
  rcases h : (heapGetD s c).PluginRunner with _ | rv
  · simp [DeleteLogstoreConfig, h]
  · cases rv <;> simp [DeleteLogstoreConfig, h]

theorem delete_LastUnsendBuffer_eq (c : Nat) (b : Bool) (s : MState) :
    (DeleteLogstoreConfig c b s).LastUnsendBuffer =
      if b then s.LastUnsendBuffer
      else ainsert s.LastUnsendBuffer (heapGetD s c).ConfigName (heapGetD s c).PluginRunner := by
  rcases h : (heapGetD s c).PluginRunner with _ | rv
  · simp [DeleteLogstoreConfig, h]
  · cases rv <;> simp [DeleteLogstoreConfig, h]

theorem delete_heap_ne (c c' : Nat) (b : Bool) (s : MState) (h : c' ≠ c) :
    alookup (DeleteLogstoreConfig c b s).heap c' = alookup s.heap c' := by
  rcases hr : (heapGetD s c).PluginRunner with _ | rv
  · simp [DeleteLogstoreConfig, hr, alookup_ainsert_ne _ _ _ _ h]
  · cases rv <;> simp [DeleteLogstoreConfig, hr, alookup_ainsert_ne _ _ _ _ h]

theorem delete_heap_self (c : Nat) (b : Bool) (s : MState) :
    (heapGetD (DeleteLogstoreConfig c b s) c).Context = none ∧
    (heapGetD (DeleteLogstoreConfig c b s) c).PluginRunner = none ∧
    (heapGetD (DeleteLogstoreConfig c b s) c).ConfigName = (heapGetD s c).ConfigName ∧
    (heapGetD (DeleteLogstoreConfig c b s) c).ConfigNameWithSuffix
      = (heapGetD s c).ConfigNameWithSuffix ∧
    (heapGetD (DeleteLogstoreConfig c b s) c).stopBehavior = (heapGetD s c).stopBehavior := by
  rcases h : (heapGetD s c).PluginRunner with _ | rv
  · simp [DeleteLogstoreConfig, heapGetD, h, alookup_ainsert_self]
  · cases rv <;> simp [DeleteLogstoreConfig, heapGetD, h, alookup_ainsert_self]

theorem delete_runnerHeap_self (c : Nat) (b : Bool) (s : MState) (rv : PluginRunner)
    (h : (heapGetD s c).PluginRunner = some rv) :
    alookup (DeleteLogstoreConfig c b s).runnerHeap rv.rid
      = some (nullRunnerRefs (runnerGetD s rv.rid)) := by
  cases rv <;> simp [DeleteLogstoreConfig, h, PluginRunner.rid, alookup_ainsert_self]

theorem delete_runnerHeap_ne (c : Nat) (b : Bool) (s : MState) (rid' : Nat)
    (h : (heapGetD s c).PluginRunner.map PluginRunner.rid ≠ some rid') :
    alookup (DeleteLogstoreConfig c b s).runnerHeap rid' = alookup s.runnerHeap rid' := by
  rcases hr : (heapGetD s c).PluginRunner with _ | rv
  · simp [DeleteLogstoreConfig, hr]
  · rw [hr] at h
    simp only [Option.map_some'] at h
    have hne : rid' ≠ rv.rid := fun hh => h (by rw [hh])
    cases rv <;>
      simpa [DeleteLogstoreConfig, hr, PluginRunner.rid] using
        alookup_ainsert_ne s.runnerHeap _ rid' _ (by simpa [PluginRunner.rid] using hne)

/-! ## Teardown predicates -/

/-- All plugin instances of one role collection have a nil `Config`
back-reference. -/
def wrappersNil (l : List PluginInstanceW) : Prop :=
  ∀ p ∈ l, p.Config = none

instance (l : List PluginInstanceW) : Decidable (wrappersNil l) :=
  List.decidableBAll _ l

/-- Every plugin instance of every role collection of the runner has a
nil back-reference to its pipeline. -/
def runnerConfigsNil (rd : RunnerData) : Prop :=
  wrappersNil rd.MetricPlugins ∧ wrappersNil rd.ServicePlugins ∧
  wrappersNil rd.ProcessorPlugins ∧ wrappersNil rd.AggregatorPlugins ∧
  wrappersNil rd.FlusherPlugins

instance (rd : RunnerData) : Decidable (runnerConfigsNil rd) := by
  unfold runnerConfigsNil
  infer_instance

theorem wrappersNil_nullWrapperList (l : List PluginInstanceW) :
    wrappersNil (nullWrapperList l) := by
  intro p hp
  rcases List.mem_map.mp hp with ⟨q, _, rfl⟩
  rfl

theorem runnerConfigsNil_nullRunnerRefs (rd : RunnerData) :
    runnerConfigsNil (nullRunnerRefs rd) :=
  ⟨wrappersNil_nullWrapperList _, wrappersNil_nullWrapperList _,
   wrappersNil_nullWrapperList _, wrappersNil_nullWrapperList _,
   wrappersNil_nullWrapperList _⟩

/-- The spec's Registry/Disabled disjointness invariant: no pipeline
object is simultaneously a value of the Registry and a member of the
Disabled set. -/
def DisjointInv (s : MState) : Prop :=
  ∀ p ∈ s.LogtailConfig, p.2 ∉ s.DisabledLogtailConfig

instance (s : MState) : Decidable (DisjointInv s) :=
  List.decidableBAll _ _

/-! ## Concrete fixtures used by the witnesses -/

/-- A plugin instance back-referencing pipeline 0. -/
def exWrapper : PluginInstanceW := { Config := some 0 }

/-- A generation-1 runner for pipeline 0. -/
def exRunner : RunnerData :=
  { MetricPlugins := [exWrapper], ServicePlugins := [exWrapper],
    ProcessorPlugins := [], AggregatorPlugins := [exWrapper],
    FlusherPlugins := [exWrapper], LogstoreConfig := some 0, withInput := true }

/-- A live pipeline object with the given stop behavior. -/
def exConfig (b : StopBehavior) : LogstoreConfig :=
  { ConfigName := "c0", ConfigNameWithSuffix := "c0/1",
    Context := some (.imp (some 0)), PluginRunner := some (.v1 0),
    stopBehavior := b }

/-- A manager state with the single pipeline `"c0/1"` registered. -/
def exState (b : StopBehavior) : MState :=
  { heap := [(0, exConfig b)], runnerHeap := [(0, exRunner)],
    LogtailConfig := [("c0/1", 0)],
    ToStartPipelineConfigWithInput := none,
    ToStartPipelineConfigWithoutInput := none,
    DisabledLogtailConfig := [], LastUnsendBuffer := [] }

/-- A manager state where pipeline 0 has been quarantined: it is in the
Disabled set and already removed from the Registry. -/
def exStateDisabled : MState :=
  { exState .slow with LogtailConfig := [], DisabledLogtailConfig := [0] }

/-! ## Claim theorems -/

/-- C1: for every registered pipeline whose stop procedure exceeds the
30-second deadline, `Stop(name, removedFlag)` still returns success (nil
error), the name is removed from the Registry, and the pipeline is added
to the Disabled set; and `timeoutStop` returns false exactly when the
stop procedure has not signalled completion within 30 seconds. -/
theorem stop_timeout_quarantines (configName : String) (removedFlag : Bool) (s : MState)
    (c : Nat) (h : alookup s.LogtailConfig configName = some c)
    (hb : (heapGetD s c).stopBehavior = .slow) :
    (∃ s', Stop configName removedFlag s = .ok none s' ∧
      alookup s'.LogtailConfig configName = none ∧
      c ∈ s'.DisabledLogtailConfig) ∧
    (∀ b : StopBehavior, timeoutStopRet b = some false ↔ b = .slow) := by
  constructor
  · refine ⟨stopSlowUnregister configName (stopTimeoutAddDisabled c s), ?_, ?_, ?_⟩
    · simp [Stop, h, hb, timeoutStopRet]
    · simp [stopSlowUnregister, stopTimeoutAddDisabled, alookup_aerase_self]
    · simp [stopSlowUnregister, stopTimeoutAddDisabled, mem_dinsert]
  · intro b
    cases b <;> simp [timeoutStopRet]

theorem stop_timeout_quarantines_witness :
    alookup (exState .slow).LogtailConfig "c0/1" = some 0 ∧
    (heapGetD (exState .slow) 0).stopBehavior = .slow ∧
    ((∃ s', Stop "c0/1" false (exState .slow) = .ok none s' ∧
      alookup s'.LogtailConfig "c0/1" = none ∧
      0 ∈ s'.DisabledLogtailConfig) ∧
    (∀ b : StopBehavior, timeoutStopRet b = some false ↔ b = .slow)) :=
  ⟨by decide, by decide,
   stop_timeout_quarantines "c0/1" false (exState .slow) 0 (by decide) (by decide)⟩

/-- C3: when the background stop task launched by `timeoutStop`
eventually finishes, it performs the deferred teardown (context, plugin
back-references and runner back-reference nulled) and removes the
pipeline from the Disabled set if the pipeline is still recorded there,
touching nothing else; if the pipeline is no longer in the Disabled set
it changes nothing at all. -/
theorem goroutine_finish_reconciles (c : Nat) (removedFlag : Bool) (s : MState)
    (rv : PluginRunner) (hr : (heapGetD s c).PluginRunner = some rv) :
    (c ∈ s.DisabledLogtailConfig →
      c ∉ (stopGoroutineFinish c removedFlag s).DisabledLogtailConfig ∧
      (∀ x, x ∈ (stopGoroutineFinish c removedFlag s).DisabledLogtailConfig ↔
        x ∈ s.DisabledLogtailConfig ∧ x ≠ c) ∧
      (heapGetD (stopGoroutineFinish c removedFlag s) c).Context = none ∧
      (heapGetD (stopGoroutineFinish c removedFlag s) c).PluginRunner = none ∧
      alookup (stopGoroutineFinish c removedFlag s).runnerHeap rv.rid
        = some (nullRunnerRefs (runnerGetD s rv.rid)) ∧
      runnerConfigsNil (nullRunnerRefs (runnerGetD s rv.rid)) ∧
      (stopGoroutineFinish c removedFlag s).LogtailConfig = s.LogtailConfig ∧
      (stopGoroutineFinish c removedFlag s).ToStartPipelineConfigWithInput
        = s.ToStartPipelineConfigWithInput ∧
      (stopGoroutineFinish c removedFlag s).ToStartPipelineConfigWithoutInput
        = s.ToStartPipelineConfigWithoutInput) ∧
    (c ∉ s.DisabledLogtailConfig → stopGoroutineFinish c removedFlag s = s) := by
  constructor
  · intro hd
    simp only [stopGoroutineFinish, if_pos hd]
    refine ⟨?_, ?_, (delete_heap_self c removedFlag s).1,
      (delete_heap_self c removedFlag s).2.1,
      delete_runnerHeap_self c removedFlag s rv hr,
      runnerConfigsNil_nullRunnerRefs _,
      delete_LogtailConfig_eq c removedFlag s,
      delete_slotIn_eq c removedFlag s,
      delete_slotOut_eq c removedFlag s⟩
    · simp [mem_derase]
    · intro x
      simp [mem_derase, delete_Disabled_eq]
  · intro hd
    simp [stopGoroutineFinish, if_neg hd]

theorem goroutine_finish_reconciles_witness :
    (heapGetD exStateDisabled 0).PluginRunner = some (.v1 0) ∧
    0 ∈ exStateDisabled.DisabledLogtailConfig ∧
    0 ∉ (stopGoroutineFinish 0 false exStateDisabled).DisabledLogtailConfig :=
  ⟨by decide, by decide,
   ((goroutine_finish_reconciles 0 false exStateDisabled (.v1 0) (by decide)).1
     (by decide)).1⟩

/-- C5 (evaluation of the code at the failing input): for a registered
pipeline whose stop procedure panics, the panic is raised on the
goroutine spawned inside `timeoutStop`, which installs no `recover`; a
panic is not recoverable across goroutines, so the process crashes
instead of `Stop`/`StopAllPipelines` returning normally. -/
theorem stop_panicking_stop_crashes (configName : String) (removedFlag : Bool) (s : MState)
    (c : Nat) (h : alookup s.LogtailConfig configName = some c)
    (hb : (heapGetD s c).stopBehavior = .panics) :
    Stop configName removedFlag s = .crash ∧
    (∀ rest withInput, s.LogtailConfig = (configName, c) :: rest →
      runnerWithInput s c = withInput → StopAllPipelines withInput s = .crash) := by
  constructor
  · simp [Stop, h, hb, timeoutStopRet]
  · intro rest wi hl hw
    simp [StopAllPipelines, hl, stopAllLoop, hw, hb]

theorem stop_panicking_stop_crashes_witness :
    alookup (exState .panics).LogtailConfig "c0/1" = some 0 ∧
    (heapGetD (exState .panics) 0).stopBehavior = .panics ∧
    Stop "c0/1" true (exState .panics) = .crash :=
  ⟨by decide, by decide,
   (stop_panicking_stop_crashes "c0/1" true (exState .panics) 0 (by decide) (by decide)).1⟩

/-- C6: for every name not present in the Registry, `Stop` returns the
NotFound error `"config not found: <name>"` and the whole state — in
particular the Registry, the Disabled set and the Last-unsent-buffer map
— is unchanged. -/
theorem stop_unknown_notfound (configName : String) (removedFlag : Bool) (s : MState)
    (h : alookup s.LogtailConfig configName = none) :
    Stop configName removedFlag s = .ok (some ("config not found: " ++ configName)) s := by
  simp [Stop, h]

theorem stop_unknown_notfound_witness :
    alookup (exState .fast).LogtailConfig "missing" = none ∧
    Stop "missing" true (exState .fast)
      = .ok (some ("config not found: " ++ "missing")) (exState .fast) :=
  ⟨by decide, stop_unknown_notfound "missing" true (exState .fast) (by decide)⟩

/-- C2: for every registered pipeline whose stop procedure completes
within the deadline, after `Stop(name, removedFlag)` returns the
pipeline is absent from the Registry, absent from the Disabled set, and
every plugin instance of its runner has a nil `Config` back-reference
(and the pipeline object's own context and runner references are nil). -/
theorem stop_fast_clean_removal (configName : String) (removedFlag : Bool) (s : MState)
    (c : Nat) (rv : PluginRunner)
    (h : alookup s.LogtailConfig configName = some c)
    (hb : (heapGetD s c).stopBehavior = .fast)
    (hr : (heapGetD s c).PluginRunner = some rv)
    (hd : c ∉ s.DisabledLogtailConfig) :
    ∃ s', Stop configName removedFlag s = .ok none s' ∧
      alookup s'.LogtailConfig configName = none ∧
      c ∉ s'.DisabledLogtailConfig ∧
      (heapGetD s' c).Context = none ∧
      (heapGetD s' c).PluginRunner = none ∧
      alookup s'.runnerHeap rv.rid = some (nullRunnerRefs (runnerGetD s rv.rid)) ∧
      runnerConfigsNil (nullRunnerRefs (runnerGetD s rv.rid)) := by
  refine ⟨stopFastBody configName c removedFlag s, ?_, ?_, ?_,
    (delete_heap_self c removedFlag s).1, (delete_heap_self c removedFlag s).2.1,
    delete_runnerHeap_self c removedFlag s rv hr, runnerConfigsNil_nullRunnerRefs _⟩
  · simp [Stop, h, hb, timeoutStopRet]
  · simp [stopFastBody, alookup_aerase_self]
  · simpa [stopFastBody, delete_Disabled_eq] using hd

theorem stop_fast_clean_removal_witness :
    alookup (exState .fast).LogtailConfig "c0/1" = some 0 ∧
    (heapGetD (exState .fast) 0).stopBehavior = .fast ∧
    (heapGetD (exState .fast) 0).PluginRunner = some (.v1 0) ∧
    0 ∉ (exState .fast).DisabledLogtailConfig ∧
    (∃ s', Stop "c0/1" false (exState .fast) = .ok none s' ∧
      alookup s'.LogtailConfig "c0/1" = none ∧
      0 ∉ s'.DisabledLogtailConfig ∧
      (heapGetD s' 0).Context = none ∧
      (heapGetD s' 0).PluginRunner = none ∧
      alookup s'.runnerHeap (PluginRunner.rid (.v1 0))
        = some (nullRunnerRefs (runnerGetD (exState .fast) (PluginRunner.rid (.v1 0)))) ∧
      runnerConfigsNil (nullRunnerRefs (runnerGetD (exState .fast) (PluginRunner.rid (.v1 0))))) :=
  ⟨by decide, by decide, by decide, by decide,
   stop_fast_clean_removal "c0/1" false (exState .fast) 0 (.v1 0)
     (by decide) (by decide) (by decide) (by decide)⟩

/-- The state of `exState .fast` after its pipeline has been torn down
once with `removedFlag = false` (so the Last-unsend-buffer holds its
runner). -/
def exTornState : MState := DeleteLogstoreConfig 0 false (exState .fast)

/-- C4 counterexample: invoking `DeleteLogstoreConfig` a second time with
`removedFlag = false` on the already-torn-down pipeline does change the
state — the Last-unsend-buffer entry for the pipeline's name, which held
the preserved runner after the first call, is overwritten with nil
(`config.PluginRunner` is already nil on the second call and the
assignment `LastUnsendBuffer[config.ConfigName] = config.PluginRunner`
is unconditional). -/
theorem delete_idempotent_counterexample :
    DeleteLogstoreConfig 0 false exTornState ≠ exTornState ∧
    alookup exTornState.LastUnsendBuffer "c0" = some (some (.v1 0)) ∧
    alookup (DeleteLogstoreConfig 0 false exTornState).LastUnsendBuffer "c0"
      = some none := by
  decide

/-- C4 amended: teardown is idempotent for `removedFlag = true` — a
second call on an already-torn-down pipeline is a complete no-op; for
`removedFlag = false` the second call leaves everything unchanged except
that it overwrites the Last-unsend-buffer entry for the pipeline's name
with nil. -/
theorem delete_idempotent_amended (c : Nat) (s : MState) (cfg : LogstoreConfig)
    (hc : alookup s.heap c = some cfg)
    (hctx : cfg.Context = none) (hr : cfg.PluginRunner = none) :
    DeleteLogstoreConfig c true s = s ∧
    DeleteLogstoreConfig c false s =
      { s with LastUnsendBuffer := ainsert s.LastUnsendBuffer cfg.ConfigName none } := by
  have hget : heapGetD s c = cfg := by simp [heapGetD, hc]
  obtain ⟨n1, n2, ctx, pr, sb⟩ := cfg
  simp only at hctx hr
  subst hctx
  subst hr
  have h1 : ainsert s.heap c ⟨n1, n2, none, none, sb⟩ = s.heap :=
    ainsert_of_alookup_eq _ _ _ hc
  constructor
  · simp only [DeleteLogstoreConfig, hget]
    rw [h1]
    simp
  · simp only [DeleteLogstoreConfig, hget]
    rw [h1]
    simp

/-- The torn-down pipeline object inside `exTornState`. -/
def exTornConfig : LogstoreConfig :=
  { ConfigName := "c0", ConfigNameWithSuffix := "c0/1", Context := none,
    PluginRunner := none, stopBehavior := .fast }

theorem delete_idempotent_amended_witness :
    alookup exTornState.heap 0 = some exTornConfig ∧
    exTornConfig.Context = none ∧
    exTornConfig.PluginRunner = none ∧
    (DeleteLogstoreConfig 0 true exTornState = exTornState ∧
     DeleteLogstoreConfig 0 false exTornState =
       { exTornState with
         LastUnsendBuffer := ainsert exTornState.LastUnsendBuffer
           exTornConfig.ConfigName none }) :=
  ⟨by decide, by decide, by decide,
   delete_idempotent_amended 0 exTornState exTornConfig (by decide) (by decide) (by decide)⟩

/-! Fixtures for the staging-slot claims: both slots staged, holding two
different pipeline objects with the same name-with-suffix. -/

def exRunnerIn : RunnerData :=
  { MetricPlugins := [{ Config := some 1 }], ServicePlugins := [],
    ProcessorPlugins := [], AggregatorPlugins := [],
    FlusherPlugins := [{ Config := some 1 }], LogstoreConfig := some 1,
    withInput := true }

def exRunnerOut : RunnerData :=
  { MetricPlugins := [], ServicePlugins := [],
    ProcessorPlugins := [{ Config := some 2 }], AggregatorPlugins := [],
    FlusherPlugins := [{ Config := some 2 }], LogstoreConfig := some 2,
    withInput := false }

def exConfigIn : LogstoreConfig :=
  { ConfigName := "b0", ConfigNameWithSuffix := "b0/1",
    Context := some (.imp (some 1)), PluginRunner := some (.v1 1),
    stopBehavior := .fast }

def exConfigOut : LogstoreConfig :=
  { ConfigName := "b0", ConfigNameWithSuffix := "b0/1",
    Context := some (.imp (some 2)), PluginRunner := some (.v2 2),
    stopBehavior := .fast }

def exStateBoth : MState :=
  { heap := [(1, exConfigIn), (2, exConfigOut)],
    runnerHeap := [(1, exRunnerIn), (2, exRunnerOut)],
    LogtailConfig := [],
    ToStartPipelineConfigWithInput := some 1,
    ToStartPipelineConfigWithoutInput := some 2,
    DisabledLogtailConfig := [], LastUnsendBuffer := [] }

def exStateBothAfter : MState :=
  { exStateBoth with
    LogtailConfig := [("b0/1", 1)],
    ToStartPipelineConfigWithInput := none }

/-- C7 counterexample: `Start("b0/1")` succeeds on a state where both
staging slots hold a pipeline named `"b0/1"`, yet afterwards the
without-input staging slot still holds a pipeline with exactly that
name — the name is not absent from both staging slots. -/
theorem start_slots_counterexample :
    Start "b0/1" exStateBoth = .ok none exStateBothAfter ∧
    exStateBothAfter.ToStartPipelineConfigWithoutInput = some 2 ∧
    (heapGetD exStateBothAfter 2).ConfigNameWithSuffix = "b0/1" := by
  decide

/-- C7 amended: if `Start(name)` succeeds then `name` is present in the
Registry and the staging slot that was promoted is cleared, while the
other slot is untouched (so when both slots held pipelines with that
name, the without-input slot still does); if `name` matches neither
staged pipeline, `Start` returns an error and the whole state is
unchanged. -/
theorem start_amended (configName : String) (s : MState) :
    (∀ c, s.ToStartPipelineConfigWithInput = some c →
      (heapGetD s c).ConfigNameWithSuffix = configName →
      ∃ s', Start configName s = .ok none s' ∧
        alookup s'.LogtailConfig configName = some c ∧
        s'.ToStartPipelineConfigWithInput = none ∧
        s'.ToStartPipelineConfigWithoutInput = s.ToStartPipelineConfigWithoutInput) ∧
    ((∀ c, s.ToStartPipelineConfigWithInput = some c →
        (heapGetD s c).ConfigNameWithSuffix ≠ configName) →
      ∀ c, s.ToStartPipelineConfigWithoutInput = some c →
      (heapGetD s c).ConfigNameWithSuffix = configName →
      ∃ s', Start configName s = .ok none s' ∧
        alookup s'.LogtailConfig configName = some c ∧
        s'.ToStartPipelineConfigWithoutInput = none ∧
        s'.ToStartPipelineConfigWithInput = s.ToStartPipelineConfigWithInput) ∧
    ((∀ c, s.ToStartPipelineConfigWithInput = some c →
        (heapGetD s c).ConfigNameWithSuffix ≠ configName) →
      (∀ c, s.ToStartPipelineConfigWithoutInput = some c →
        (heapGetD s c).ConfigNameWithSuffix ≠ configName) →
      ∃ msg, Start configName s = .ok (some msg) s) := by
  refine ⟨?_, ?_, ?_⟩
  · intro c hc hn
    refine ⟨{ s with
      LogtailConfig := ainsert s.LogtailConfig configName c,
      ToStartPipelineConfigWithInput := none }, ?_,
      alookup_ainsert_self _ _ _, rfl, rfl⟩
    simp [Start, hc, hn]
  · intro hno c hc hn
    have hstart : Start configName s = startWithoutInputBranch configName s := by
      rcases hw : s.ToStartPipelineConfigWithInput with _ | c1
      · simp [Start, hw]
      · simp [Start, hw, hno c1 hw]
    refine ⟨{ s with
      LogtailConfig := ainsert s.LogtailConfig configName c,
      ToStartPipelineConfigWithoutInput := none }, ?_,
      alookup_ainsert_self _ _ _, rfl, rfl⟩
    rw [hstart]
    simp [startWithoutInputBranch, hc, hn]
  · intro hno1 hno2
    have hstart : Start configName s = startWithoutInputBranch configName s := by
      rcases hw : s.ToStartPipelineConfigWithInput with _ | c1
      · simp [Start, hw]
      · simp [Start, hw, hno1 c1 hw]
    refine ⟨"config unmatch with the loaded pipeline: given " ++ configName
      ++ ", expect " ++ startErrMsg s, ?_⟩
    rcases hwo : s.ToStartPipelineConfigWithoutInput with _ | c2
    · rw [hstart]
      simp [startWithoutInputBranch, hwo]
    · rw [hstart]
      simp [startWithoutInputBranch, hwo, hno2 c2 hwo]

theorem start_amended_witness :
    (∀ c, (exState .fast).ToStartPipelineConfigWithInput = some c →
      (heapGetD (exState .fast) c).ConfigNameWithSuffix ≠ "nope") ∧
    (∀ c, (exState .fast).ToStartPipelineConfigWithoutInput = some c →
      (heapGetD (exState .fast) c).ConfigNameWithSuffix ≠ "nope") ∧
    (∃ msg, Start "nope" (exState .fast) = .ok (some msg) (exState .fast)) :=
  ⟨by decide, by decide,
   (start_amended "nope" (exState .fast)).2.2 (by decide) (by decide)⟩

/-- C10: when both staging slots hold pipelines whose name-with-suffix
equals the requested name, `Start` promotes only the with-input slot's
pipeline into the Registry and clears only that slot; the without-input
slot still holds its pipeline, whose name is still the requested name,
after `Start` returns successfully. -/
theorem start_both_slots_with_input_priority (configName : String) (s : MState)
    (c1 c2 : Nat)
    (h1 : s.ToStartPipelineConfigWithInput = some c1)
    (h2 : s.ToStartPipelineConfigWithoutInput = some c2)
    (hn1 : (heapGetD s c1).ConfigNameWithSuffix = configName)
    (hn2 : (heapGetD s c2).ConfigNameWithSuffix = configName) :
    ∃ s', Start configName s = .ok none s' ∧
      alookup s'.LogtailConfig configName = some c1 ∧
      s'.ToStartPipelineConfigWithInput = none ∧
      s'.ToStartPipelineConfigWithoutInput = some c2 ∧
      (heapGetD s' c2).ConfigNameWithSuffix = configName := by
  refine ⟨{ s with
    LogtailConfig := ainsert s.LogtailConfig configName c1,
    ToStartPipelineConfigWithInput := none }, ?_,
    alookup_ainsert_self _ _ _, rfl, h2, hn2⟩
  simp [Start, h1, hn1]

theorem start_both_slots_with_input_priority_witness :
    exStateBoth.ToStartPipelineConfigWithInput = some 1 ∧
    exStateBoth.ToStartPipelineConfigWithoutInput = some 2 ∧
    (heapGetD exStateBoth 1).ConfigNameWithSuffix = "b0/1" ∧
    (heapGetD exStateBoth 2).ConfigNameWithSuffix = "b0/1" ∧
    (∃ s', Start "b0/1" exStateBoth = .ok none s' ∧
      alookup s'.LogtailConfig "b0/1" = some 1 ∧
      s'.ToStartPipelineConfigWithInput = none ∧
      s'.ToStartPipelineConfigWithoutInput = some 2 ∧
      (heapGetD s' 2).ConfigNameWithSuffix = "b0/1") :=
  ⟨by decide, by decide, by decide, by decide,
   start_both_slots_with_input_priority "b0/1" exStateBoth 1 2
     (by decide) (by decide) (by decide) (by decide)⟩

/-! ## Machinery for `StopAllPipelines` and the disjointness invariant -/

/-- The runner pointer id held by config `c`, if any. -/
def cfgRid (s : MState) (c : Nat) : Option Nat :=
  (heapGetD s c).PluginRunner.map PluginRunner.rid

/-- The registered pipelines reference pairwise distinct names, config
objects and runner objects (in Go: the registry maps distinct names to
distinct `*LogstoreConfig`s, which own distinct runner structs). -/
def PairwiseDistinct (s : MState) : List (String × Nat) → Prop
  | [] => True
  | p :: rest =>
      (∀ q ∈ rest, p.1 ≠ q.1 ∧ p.2 ≠ q.2 ∧ cfgRid s p.2 ≠ cfgRid s q.2) ∧
      PairwiseDistinct s rest

instance PairwiseDistinct.dec (s : MState) :
    (l : List (String × Nat)) → Decidable (PairwiseDistinct s l)
  | [] => .isTrue trivial
  | _ :: rest =>
      have : Decidable (PairwiseDistinct s rest) := PairwiseDistinct.dec s rest
      inferInstanceAs (Decidable (_ ∧ _))

theorem keys_nodup_of_pairwiseDistinct (s : MState) (l : List (String × Nat))
    (h : PairwiseDistinct s l) : (l.map Prod.fst).Nodup := by
  induction l with
  | nil => simp
  | cons p rest ih =>
    obtain ⟨h1, h2⟩ := h
    refine List.nodup_cons.mpr ⟨?_, ih h2⟩
    intro hmem
    rcases List.mem_map.mp hmem with ⟨q, hq, hqe⟩
    exact (h1 q hq).1 hqe.symm

theorem eq_of_snd_eq_of_pairwiseDistinct (s : MState) (l : List (String × Nat))
    (h : PairwiseDistinct s l) (p q : String × Nat) (hp : p ∈ l) (hq : q ∈ l)
    (hpq : p.2 = q.2) : p = q := by
  induction l with
  | nil => simp at hp
  | cons x rest ih =>
    obtain ⟨h1, h2⟩ := h
    rcases List.mem_cons.mp hp with rfl | hp'
    · rcases List.mem_cons.mp hq with rfl | hq'
      · rfl
      · exact absurd hpq (h1 q hq').2.1
    · rcases List.mem_cons.mp hq with rfl | hq'
      · exact absurd hpq.symm (h1 p hp').2.1
      · exact ih h2 hp' hq'

/-- Frame lemma: tearing down config `c` does not affect the observable
attributes of a different config `c'` owning a different runner. -/
theorem delete_frame_other (c c' : Nat) (b : Bool) (s : MState)
    (hne : c' ≠ c) (hrid : cfgRid s c' ≠ cfgRid s c) :
    heapGetD (DeleteLogstoreConfig c b s) c' = heapGetD s c' ∧
    runnerWithInput (DeleteLogstoreConfig c b s) c' = runnerWithInput s c' ∧
    cfgRid (DeleteLogstoreConfig c b s) c' = cfgRid s c' := by
  have hheap : heapGetD (DeleteLogstoreConfig c b s) c' = heapGetD s c' := by
    simp [heapGetD, delete_heap_ne c c' b s hne]
  refine ⟨hheap, ?_, ?_⟩
  · rcases hr : (heapGetD s c').PluginRunner with _ | rv
    · simp [runnerWithInput, hheap, hr]
    · have hrh : alookup (DeleteLogstoreConfig c b s).runnerHeap rv.rid
          = alookup s.runnerHeap rv.rid := by
        refine delete_runnerHeap_ne c b s rv.rid ?_
        intro hcon
        apply hrid
        simp [cfgRid, hr, hcon]
      simp [runnerWithInput, hheap, hr, runnerGetD, hrh]
  · simp [cfgRid, hheap]

/-- The names collected by the first loop of `StopAllPipelines`, with the
needs-stopping test evaluated against a fixed state. -/
def stopNames (withInput : Bool) (s : MState) (l : List (String × Nat)) : List String :=
  (l.filter (fun p => runnerWithInput s p.2 == withInput)).map Prod.fst

theorem stopNames_congr (withInput : Bool) (s1 s2 : MState) (l : List (String × Nat))
    (h : ∀ p ∈ l, runnerWithInput s1 p.2 = runnerWithInput s2 p.2) :
    stopNames withInput s1 l = stopNames withInput s2 l := by
  unfold stopNames
  rw [List.filter_congr (fun p hp => by rw [h p hp])]

theorem mem_stopNames (withInput : Bool) (s : MState) (l : List (String × Nat))
    (name : String) :
    name ∈ stopNames withInput s l ↔
      ∃ c, (name, c) ∈ l ∧ runnerWithInput s c = withInput := by
  simp only [stopNames, List.mem_map, List.mem_filter]
  constructor
  · rintro ⟨p, ⟨hp, hf⟩, rfl⟩
    exact ⟨p.2, hp, by simpa using hf⟩
  · rintro ⟨c, hc, hw⟩
    exact ⟨(name, c), ⟨hc, by simpa using hw⟩, rfl⟩

theorem alookup_eraseAll (ks : List String) (l : List (String × Nat)) (k : String) :
    alookup (eraseAll l ks) k = if k ∈ ks then none else alookup l k := by
  induction ks generalizing l with
  | nil => simp [eraseAll]
  | cons k0 kt ih =>
    show alookup (eraseAll (aerase l k0) kt) k = _
    rw [ih]
    by_cases hk : k = k0
    · subst hk
      simp [alookup_aerase_self]
    · simp only [List.mem_cons]
      by_cases hkt : k ∈ kt
      · simp [hkt]
      · simp [hkt, hk, alookup_aerase_ne l k0 k hk]

theorem mem_eraseAll (ks : List String) (l : List (String × Nat)) (p : String × Nat) :
    p ∈ eraseAll l ks ↔ p ∈ l ∧ p.1 ∉ ks := by
  induction ks generalizing l with
  | nil => simp [eraseAll]
  | cons k0 kt ih =>
    show p ∈ eraseAll (aerase l k0) kt ↔ _
    rw [ih, mem_aerase]
    simp only [List.mem_cons]
    constructor
    · rintro ⟨⟨hm, hne⟩, hnt⟩
      exact ⟨hm, by rintro (h | h) <;> [exact hne h; exact hnt h]⟩
    · rintro ⟨hm, hn⟩
      exact ⟨⟨hm, fun h => hn (Or.inl h)⟩, fun h => hn (Or.inr h)⟩

theorem pairwiseDistinct_congr (s1 s2 : MState) (l : List (String × Nat))
    (h : ∀ p ∈ l, cfgRid s1 p.2 = cfgRid s2 p.2) (hpd : PairwiseDistinct s2 l) :
    PairwiseDistinct s1 l := by
  induction l with
  | nil => trivial
  | cons p rest ih =>
    obtain ⟨h1, h2⟩ := hpd
    refine ⟨?_, ih (fun q hq => h q (List.mem_cons_of_mem _ hq)) h2⟩
    intro q hq
    obtain ⟨ha, hb, hc⟩ := h1 q hq
    refine ⟨ha, hb, ?_⟩
    rw [h p (List.mem_cons_self _ _), h q (List.mem_cons_of_mem _ hq)]
    exact hc

/-- Behaviour of the first loop of `StopAllPipelines` over a list of
registry entries: it returns (no crash, given no panicking stop among
them), collects exactly the names whose runner matches the filter, does
not touch the registry or the staging slots, and adds to the Disabled set
exactly the matching configs whose stop timed out. -/
theorem stopAllLoop_spec (withInput : Bool) (l : List (String × Nat)) :
    ∀ (s : MState),
    (∀ p ∈ l, (heapGetD s p.2).stopBehavior ≠ .panics) →
    PairwiseDistinct s l →
    ∃ s', stopAllLoop withInput l s = some (s', stopNames withInput s l) ∧
      s'.LogtailConfig = s.LogtailConfig ∧
      s'.ToStartPipelineConfigWithInput = s.ToStartPipelineConfigWithInput ∧
      s'.ToStartPipelineConfigWithoutInput = s.ToStartPipelineConfigWithoutInput ∧
      (∀ x, x ∈ s'.DisabledLogtailConfig ↔ x ∈ s.DisabledLogtailConfig ∨
        ∃ p ∈ l, p.2 = x ∧ runnerWithInput s p.2 = withInput ∧
          (heapGetD s p.2).stopBehavior = .slow) := by
  induction l with
  | nil =>
    intro s _ _
    refine ⟨s, rfl, rfl, rfl, rfl, ?_⟩
    simp
  | cons hd rest ih =>
    intro s hnp hpd
    obtain ⟨name, c⟩ := hd
    obtain ⟨hhd, hrest⟩ := hpd
    by_cases hneed : runnerWithInput s c = withInput
    · have hb := hnp (name, c) (List.mem_cons_self _ _)
      rcases hbe : (heapGetD s c).stopBehavior with _ | _ | _
      · -- completed before the deadline: synchronous teardown, recurse
        have hframe : ∀ q ∈ rest,
            heapGetD (DeleteLogstoreConfig c true s) q.2 = heapGetD s q.2 ∧
            runnerWithInput (DeleteLogstoreConfig c true s) q.2 = runnerWithInput s q.2 ∧
            cfgRid (DeleteLogstoreConfig c true s) q.2 = cfgRid s q.2 := by
          intro q hq
          exact delete_frame_other c q.2 true s (Ne.symm (hhd q hq).2.1)
            (Ne.symm (hhd q hq).2.2)
        have hnp' : ∀ q ∈ rest,
            (heapGetD (DeleteLogstoreConfig c true s) q.2).stopBehavior ≠ .panics := by
          intro q hq
          rw [(hframe q hq).1]
          exact hnp q (List.mem_cons_of_mem _ hq)
        have hpd' : PairwiseDistinct (DeleteLogstoreConfig c true s) rest :=
          pairwiseDistinct_congr _ s rest (fun q hq => (hframe q hq).2.2) hrest
        obtain ⟨s', hloop, hreg, hsi, hso, hdis⟩ :=
          ih (DeleteLogstoreConfig c true s) hnp' hpd'
        have hns : stopNames withInput (DeleteLogstoreConfig c true s) rest
            = stopNames withInput s rest :=
          stopNames_congr _ _ s rest (fun q hq => (hframe q hq).2.1)
        refine ⟨s', ?_,
          by rw [hreg, delete_LogtailConfig_eq],
          by rw [hsi, delete_slotIn_eq],
          by rw [hso, delete_slotOut_eq], ?_⟩
        · simp only [stopAllLoop, hneed, if_true, hbe, hloop, hns]
          simp [stopNames, List.filter_cons, hneed]
        · intro x
          rw [hdis x, delete_Disabled_eq]
          constructor
          · rintro (hx | ⟨q, hq, hq1, hq2, hq3⟩)
            · exact Or.inl hx
            · refine Or.inr ⟨q, List.mem_cons_of_mem _ hq, hq1, ?_, ?_⟩
              · rw [← (hframe q hq).2.1]
                exact hq2
              · rw [← (hframe q hq).1]
                exact hq3
          · rintro (hx | ⟨q, hq, hq1, hq2, hq3⟩)
            · exact Or.inl hx
            · rcases List.mem_cons.mp hq with heq | hq'
              · subst heq
                rw [hbe] at hq3
                cases hq3
              · refine Or.inr ⟨q, hq', hq1, ?_, ?_⟩
                · rw [(hframe q hq').2.1]
                  exact hq2
                · rw [(hframe q hq').1]
                  exact hq3
      · -- timed out: quarantine, recurse
        have hnp' : ∀ q ∈ rest,
            (heapGetD (stopTimeoutAddDisabled c s) q.2).stopBehavior ≠ .panics :=
          fun q hq => hnp q (List.mem_cons_of_mem _ hq)
        have hpd' : PairwiseDistinct (stopTimeoutAddDisabled c s) rest :=
          pairwiseDistinct_congr _ s rest (fun q hq => rfl) hrest
        obtain ⟨s', hloop, hreg, hsi, hso, hdis⟩ :=
          ih (stopTimeoutAddDisabled c s) hnp' hpd'
        have hns : stopNames withInput (stopTimeoutAddDisabled c s) rest
            = stopNames withInput s rest :=
          stopNames_congr _ _ s rest (fun q hq => rfl)
        refine ⟨s', ?_, hreg, hsi, hso, ?_⟩
        · simp only [stopAllLoop, hneed, if_true, hbe, hloop, hns]
          simp [stopNames, List.filter_cons, hneed]
        · intro x
          rw [hdis x]
          show _ ↔ x ∈ s.DisabledLogtailConfig ∨ _
          rw [show (stopTimeoutAddDisabled c s).DisabledLogtailConfig
            = dinsert c s.DisabledLogtailConfig from rfl]
          rw [mem_dinsert]
          constructor
          · rintro ((rfl | hx) | ⟨q, hq, hq1, hq2, hq3⟩)
            · exact Or.inr ⟨(name, x), List.mem_cons_self _ _, rfl, hneed, hbe⟩
            · exact Or.inl hx
            · exact Or.inr ⟨q, List.mem_cons_of_mem _ hq, hq1, hq2, hq3⟩
          · rintro (hx | ⟨q, hq, hq1, hq2, hq3⟩)
            · exact Or.inl (Or.inr hx)
            · rcases List.mem_cons.mp hq with heq | hq'
              · subst heq
                exact Or.inl (Or.inl hq1.symm)
              · exact Or.inr ⟨q, hq', hq1, hq2, hq3⟩
      · exact absurd hbe hb
    · -- filtered out: the entry is skipped entirely
      have hnp' : ∀ q ∈ rest, (heapGetD s q.2).stopBehavior ≠ .panics :=
        fun q hq => hnp q (List.mem_cons_of_mem _ hq)
      obtain ⟨s', hloop, hreg, hsi, hso, hdis⟩ := ih s hnp' hrest
      refine ⟨s', ?_, hreg, hsi, hso, ?_⟩
      · simp only [stopAllLoop, hneed, if_false, hloop]
        have : (runnerWithInput s c == withInput) = false := by
          simp [hneed]
        simp [stopNames, List.filter_cons, this]
      · intro x
        rw [hdis x]
        constructor
        · rintro (hx | ⟨q, hq, hq1, hq2, hq3⟩)
          · exact Or.inl hx
          · exact Or.inr ⟨q, List.mem_cons_of_mem _ hq, hq1, hq2, hq3⟩
        · rintro (hx | ⟨q, hq, hq1, hq2, hq3⟩)
          · exact Or.inl hx
          · rcases List.mem_cons.mp hq with heq | hq'
            · subst heq
              exact absurd hq2 hneed
            · exact Or.inr ⟨q, hq', hq1, hq2, hq3⟩

/-- C8: `StopAllPipelines(withInput)` removes from the Registry exactly
the registered pipelines whose runner's `IsWithInputPlugin()` equals
`withInput`; every pipeline whose runner reports the other value is still
registered under its name afterwards. -/
theorem stopall_filters_by_input (withInput : Bool) (s : MState)
    (hpd : PairwiseDistinct s s.LogtailConfig)
    (hnp : ∀ p ∈ s.LogtailConfig, (heapGetD s p.2).stopBehavior ≠ .panics) :
    ∃ s', StopAllPipelines withInput s = .ok none s' ∧
      ∀ name c, alookup s'.LogtailConfig name = some c ↔
        (alookup s.LogtailConfig name = some c ∧ runnerWithInput s c ≠ withInput) := by
  obtain ⟨t, hloop, hreg, _, _, _⟩ := stopAllLoop_spec withInput s.LogtailConfig s hnp hpd
  refine ⟨{ t with
    LogtailConfig := eraseAll t.LogtailConfig (stopNames withInput s s.LogtailConfig) },
    ?_, ?_⟩
  · simp [StopAllPipelines, hloop]
  · intro name c
    have hkeys := keys_nodup_of_pairwiseDistinct s s.LogtailConfig hpd
    have hlook : alookup (eraseAll t.LogtailConfig
        (stopNames withInput s s.LogtailConfig)) name
        = if name ∈ stopNames withInput s s.LogtailConfig then none
          else alookup s.LogtailConfig name := by
      rw [hreg]
      exact alookup_eraseAll _ _ _
    rw [show alookup ({ t with
      LogtailConfig := eraseAll t.LogtailConfig (stopNames withInput s s.LogtailConfig) }
        : MState).LogtailConfig name
      = alookup (eraseAll t.LogtailConfig (stopNames withInput s s.LogtailConfig)) name
      from rfl, hlook]
    by_cases hmem : name ∈ stopNames withInput s s.LogtailConfig
    · rw [if_pos hmem]
      constructor
      · intro h
        cases h
      · rintro ⟨hl, hw⟩
        exfalso
        rcases (mem_stopNames _ _ _ _).mp hmem with ⟨c2, hc2, hw2⟩
        have hl2 := mem_alookup_of_nodup _ _ _ hkeys hc2
        rw [hl] at hl2
        have hcc : c = c2 := by injection hl2
        subst hcc
        exact hw hw2
    · rw [if_neg hmem]
      constructor
      · intro hl
        refine ⟨hl, ?_⟩
        intro hw
        exact hmem ((mem_stopNames _ _ _ _).mpr ⟨c, alookup_mem _ _ _ hl, hw⟩)
      · exact fun h => h.1

/-! Fixture for `StopAllPipelines`: one pipeline without an input plugin,
one with. -/

def exRunnerP1 : RunnerData :=
  { MetricPlugins := [], ServicePlugins := [],
    ProcessorPlugins := [{ Config := some 3 }], AggregatorPlugins := [],
    FlusherPlugins := [{ Config := some 3 }], LogstoreConfig := some 3,
    withInput := false }

def exRunnerP2 : RunnerData :=
  { MetricPlugins := [{ Config := some 4 }], ServicePlugins := [],
    ProcessorPlugins := [], AggregatorPlugins := [],
    FlusherPlugins := [{ Config := some 4 }], LogstoreConfig := some 4,
    withInput := true }

def exConfigP1 : LogstoreConfig :=
  { ConfigName := "p1", ConfigNameWithSuffix := "p1/1",
    Context := some (.imp (some 3)), PluginRunner := some (.v1 3),
    stopBehavior := .fast }

def exConfigP2 : LogstoreConfig :=
  { ConfigName := "p2", ConfigNameWithSuffix := "p2/1",
    Context := some (.imp (some 4)), PluginRunner := some (.v2 4),
    stopBehavior := .fast }

def exStateTwo : MState :=
  { heap := [(3, exConfigP1), (4, exConfigP2)],
    runnerHeap := [(3, exRunnerP1), (4, exRunnerP2)],
    LogtailConfig := [("p1/1", 3), ("p2/1", 4)],
    ToStartPipelineConfigWithInput := none,
    ToStartPipelineConfigWithoutInput := none,
    DisabledLogtailConfig := [], LastUnsendBuffer := [] }

theorem stopall_filters_by_input_witness :
    PairwiseDistinct exStateTwo exStateTwo.LogtailConfig ∧
    (∀ p ∈ exStateTwo.LogtailConfig,
      (heapGetD exStateTwo p.2).stopBehavior ≠ .panics) ∧
    (∃ s', StopAllPipelines false exStateTwo = .ok none s' ∧
      ∀ name c, alookup s'.LogtailConfig name = some c ↔
        (alookup exStateTwo.LogtailConfig name = some c ∧
          runnerWithInput exStateTwo c ≠ false)) :=
  ⟨by decide, by decide,
   stopall_filters_by_input false exStateTwo (by decide) (by decide)⟩

/-! ## Micro-step relation for the lifecycle operations

The granularity is the individual lock-protected blocks of `Stop` and of
the stop goroutine: the completed-in-time branch is a single registry
write-lock block (teardown plus registry delete), while the timeout
branch consists of two separately locked blocks — adding the config to
the Disabled set under the Disabled lock (plugin_manager.go 281-283) and
then deleting the name from the Registry under the registry lock
(284-286) — with an observable state in between. -/
inductive LifecycleStep : MState → MState → Prop
  | stop_fast (configName : String) (c : Nat) (removedFlag : Bool) (s : MState)
      (h : alookup s.LogtailConfig configName = some c)
      (hb : (heapGetD s c).stopBehavior = .fast) :
      LifecycleStep s (stopFastBody configName c removedFlag s)
  | stop_slow_disable (configName : String) (c : Nat) (s : MState)
      (h : alookup s.LogtailConfig configName = some c)
      (hb : (heapGetD s c).stopBehavior = .slow) :
      LifecycleStep s (stopTimeoutAddDisabled c s)
  | stop_slow_unregister (configName : String) (c : Nat) (s : MState)
      (h : alookup s.LogtailConfig configName = some c)
      (hd : c ∈ s.DisabledLogtailConfig) :
      LifecycleStep s (stopSlowUnregister configName s)
  | goroutine_finish (c : Nat) (removedFlag : Bool) (s : MState)
      (hd : c ∈ s.DisabledLogtailConfig) :
      LifecycleStep s (stopGoroutineFinish c removedFlag s)

/-- The state in the middle of a timed-out `Stop("c0/1")`: the config has
just been added to the Disabled set, the registry delete has not yet
run. -/
def exSlowMid : MState := stopTimeoutAddDisabled 0 (exState .slow)

/-- C9 counterexample: from a state satisfying the Registry/Disabled
disjointness invariant, one reachable micro-step of a timed-out `Stop` —
the Disabled-set insertion, which the code performs before the registry
delete — produces a state in which pipeline 0 is in the Disabled set
while still registered under `"c0/1"`. -/
theorem registry_disabled_overlap_counterexample :
    DisjointInv (exState .slow) ∧
    Relation.ReflTransGen LifecycleStep (exState .slow) exSlowMid ∧
    ¬ DisjointInv exSlowMid :=
  ⟨by decide,
   Relation.ReflTransGen.single
     (LifecycleStep.stop_slow_disable "c0/1" 0 (exState .slow) (by decide) (by decide)),
   by decide⟩

/-- C9 amended: the Registry/Disabled disjointness invariant is
preserved end-to-end by every complete `Stop` call and every complete
`StopAllPipelines` call (it can be violated only transiently, between
the Disabled-set insertion and the registry delete inside a single
timed-out `Stop`). -/
theorem disjoint_inv_preserved (s : MState) :
    (∀ configName removedFlag e s', DisjointInv s →
      PairwiseDistinct s s.LogtailConfig →
      Stop configName removedFlag s = .ok e s' → DisjointInv s') ∧
    (∀ withInput s', DisjointInv s →
      PairwiseDistinct s s.LogtailConfig →
      (∀ p ∈ s.LogtailConfig, (heapGetD s p.2).stopBehavior ≠ .panics) →
      StopAllPipelines withInput s = .ok none s' → DisjointInv s') := by
  constructor
  · intro configName removedFlag e s' hinv hpd hstop
    rcases hl : alookup s.LogtailConfig configName with _ | c
    · simp only [Stop, hl] at hstop
      injection hstop with h1 h2
      subst h2
      exact hinv
    · rcases hbe : (heapGetD s c).stopBehavior with _ | _ | _
      · -- fast branch
        simp only [Stop, hl, hbe, timeoutStopRet] at hstop
        injection hstop with h1 h2
        subst h2
        intro p hp
        have hp1 : p ∈ (DeleteLogstoreConfig c removedFlag s).LogtailConfig :=
          ((mem_aerase _ _ _).mp hp).1
        rw [delete_LogtailConfig_eq] at hp1
        have hd : (stopFastBody configName c removedFlag s).DisabledLogtailConfig
            = s.DisabledLogtailConfig := delete_Disabled_eq c removedFlag s
        rw [hd]
        exact hinv p hp1
      · -- slow branch
        simp only [Stop, hl, hbe, timeoutStopRet] at hstop
        injection hstop with h1 h2
        subst h2
        intro p hp
        obtain ⟨hp1, hp2⟩ := (mem_aerase _ _ _).mp hp
        intro hmem
        rcases (mem_dinsert _ _ _).mp hmem with heq | hx
        · have hpc : p = (configName, c) :=
            eq_of_snd_eq_of_pairwiseDistinct s _ hpd p (configName, c)
              hp1 (alookup_mem _ _ _ hl) heq
          exact hp2 (by rw [hpc])
        · exact hinv p hp1 hx
      · simp only [Stop, hl, hbe, timeoutStopRet] at hstop
        cases hstop
  · intro withInput s' hinv hpd hnp hstopall
    obtain ⟨t, hloop, hreg, _, _, hdis⟩ :=
      stopAllLoop_spec withInput s.LogtailConfig s hnp hpd
    simp only [StopAllPipelines, hloop] at hstopall
    injection hstopall with h1 h2
    subst h2
    intro p hp
    have hp2 : p ∈ eraseAll s.LogtailConfig (stopNames withInput s s.LogtailConfig) := by
      have hp1 : p ∈ eraseAll t.LogtailConfig (stopNames withInput s s.LogtailConfig) := hp
      rw [hreg] at hp1
      exact hp1
    obtain ⟨hpl, hpn⟩ := (mem_eraseAll _ _ _).mp hp2
    intro hmem
    rcases (hdis p.2).mp hmem with hx | ⟨q, hq, hq1, hq2, hq3⟩
    · exact hinv p hpl hx
    · have hqp : q = p :=
        eq_of_snd_eq_of_pairwiseDistinct s _ hpd q p hq hpl hq1
      subst hqp
      exact hpn ((mem_stopNames _ _ _ _).mpr ⟨q.2, hq, hq2⟩)

/-- The state after a complete timed-out `Stop("c0/1")`. -/
def exSlowStopped : MState :=
  stopSlowUnregister "c0/1" (stopTimeoutAddDisabled 0 (exState .slow))

theorem disjoint_inv_preserved_witness :
    DisjointInv (exState .slow) ∧
    PairwiseDistinct (exState .slow) (exState .slow).LogtailConfig ∧
    Stop "c0/1" true (exState .slow) = .ok none exSlowStopped ∧
    DisjointInv exSlowStopped :=
  ⟨by decide, by decide, by decide,
   (disjoint_inv_preserved (exState .slow)).1 "c0/1" true none exSlowStopped
     (by decide) (by decide) (by decide)⟩

end PluginManager